import Mathlib

/-!
Shallow embedding of the Snake game simulation core (`src/main.py`,
class `SnakeGame`) and verification of the spec claims about it.

Modelling conventions:
* `Tile` mirrors the Python `Tile` class: a pair of pixel coordinates
  (Python ints become `Int`).
* The mutable object state of `SnakeGame` becomes the record `GameState`;
  each mutating method becomes a function `GameState → GameState` (or
  `Option GameState` when the method can fail to terminate, see below).
* `random.randint(0, COLS - 1)` / `random.randint(0, ROWS - 1)` draws are
  modelled by an explicit finite stream of candidate pairs
  `List (Fin COLS × Fin ROWS)`; `_generate_food`'s `while True` loop
  becomes a recursion over that stream returning `Option Tile`, where
  `none` means the loop has not terminated after consuming the whole
  stream (for every finite stream of draws): the Python loop would still
  be running.
-/

namespace Snake

/-- Python `GameConfig.ROWS`. -/
def ROWS : Nat := 25

/-- Python `GameConfig.COLS`. -/
def COLS : Nat := 25

/-- Python `GameConfig.TILE_SIZE`. -/
def TILE_SIZE : Nat := 25

/-- Python `GameConfig.WINDOW_WIDTH = COLS * TILE_SIZE`. -/
def WINDOW_WIDTH : Int := (COLS * TILE_SIZE : Nat)

/-- Python `GameConfig.WINDOW_HEIGHT = ROWS * TILE_SIZE`. -/
def WINDOW_HEIGHT : Int := (ROWS * TILE_SIZE : Nat)

/-- Python class `Tile`: a position in pixels; `__eq__` is exact
coordinate match. -/
structure Tile where
  x : Int
  y : Int
deriving DecidableEq, Repr

/-- Python enum `Direction`. -/
inductive Direction where
  | UP
  | DOWN
  | LEFT
  | RIGHT
deriving DecidableEq, Repr

/-- The `.value` of each `Direction` member: its unit vector. -/
def Direction.value : Direction → Int × Int
  | .UP => (0, -1)
  | .DOWN => (0, 1)
  | .LEFT => (-1, 0)
  | .RIGHT => (1, 0)

/-- The `opposite_directions` table of `_is_valid_direction_change`. -/
def opposite : Direction → Direction
  | .UP => .DOWN
  | .DOWN => .UP
  | .LEFT => .RIGHT
  | .RIGHT => .LEFT

/-- The mutable fields of the Python `SnakeGame` object that the game
logic touches. -/
structure GameState where
  snake_head : Tile
  snake_body : List Tile
  food : Tile
  direction : Option Direction
  game_over : Bool
  score : Nat
deriving DecidableEq, Repr

/-- One candidate draw of `random.randint(0, COLS-1)` and
`random.randint(0, ROWS-1)`. -/
abbrev Draw := Fin COLS × Fin ROWS

/-- Python `SnakeGame._generate_food`, with the random draws supplied as
an explicit stream: returns the first candidate tile that is neither the
head nor in the body.  `none` means the `while True` loop did not return
within the given draws. -/
def generate_food (head : Tile) (body : List Tile) : List Draw → Option Tile
  | [] => none
  | c :: rest =>
    let food : Tile := ⟨((c.1 : Nat) * TILE_SIZE : Nat), ((c.2 : Nat) * TILE_SIZE : Nat)⟩
    if food ≠ head ∧ food ∉ body then some food
    else generate_food head body rest

/-- Python `SnakeGame._is_valid_direction_change`. -/
def is_valid_direction_change (s : GameState) (new_direction : Direction) : Bool :=
  match s.direction with
  | none => true
  | some d => new_direction ≠ opposite d

/-- Python `SnakeGame._check_wall_collision`. -/
def check_wall_collision (s : GameState) : Bool :=
  s.snake_head.x < 0 ∨ s.snake_head.x ≥ WINDOW_WIDTH ∨
    s.snake_head.y < 0 ∨ s.snake_head.y ≥ WINDOW_HEIGHT

/-- Python `SnakeGame._check_self_collision` (`self.snake_head in self.snake_body`). -/
def check_self_collision (s : GameState) : Bool :=
  s.snake_head ∈ s.snake_body

/-- Python `SnakeGame._check_food_collision`. -/
def check_food_collision (s : GameState) : Bool :=
  s.snake_head = s.food

/-- One iteration of the body-shift loop of `_update_snake_position` at
index `i`: `body[0] = head` when `i == 0`, else `body[i] = body[i-1]`.
The `getD` default is never used: the loop only reads `i - 1` for
`1 ≤ i < body.length` (Python would raise `IndexError` otherwise). -/
def shift_step (head : Tile) (body : List Tile) (i : Nat) : List Tile :=
  if i = 0 then body.set 0 head
  else body.set i (body.getD (i - 1) head)

/-- The loop `for i in range(len(body) - 1, -1, -1)` of
`_update_snake_position`: `shift_loop head k body` runs the iterations
for `i = k-1, k-2, ..., 0`. -/
def shift_loop (head : Tile) : Nat → List Tile → List Tile
  | 0, body => body
  | k + 1, body => shift_loop head k (shift_step head body k)

/-- Python `SnakeGame._update_snake_position`: no-op when `direction` is
`None`; otherwise shift the body tail-to-head, then move the head by
`direction.value * TILE_SIZE`. -/
def update_snake_position (s : GameState) : GameState :=
  match s.direction with
  | none => s
  | some d =>
    { s with
      snake_body := shift_loop s.snake_head s.snake_body.length s.snake_body
      snake_head :=
        ⟨s.snake_head.x + d.value.1 * (TILE_SIZE : Int),
         s.snake_head.y + d.value.2 * (TILE_SIZE : Int)⟩ }

/-- Python `SnakeGame._handle_food_consumption`: append a body segment at
the food position, regenerate the food, increment the score.  `none`
when `_generate_food` does not terminate on the supplied draws. -/
def handle_food_consumption (draws : List Draw) (s : GameState) : Option GameState :=
  let body : List Tile := s.snake_body ++ [⟨s.food.x, s.food.y⟩]
  match generate_food s.snake_head body draws with
  | none => none
  | some f => some { s with snake_body := body, food := f, score := s.score + 1 }

/-- Python `SnakeGame._update_game_state` (one tick). -/
def update_game_state (draws : List Draw) (s : GameState) : Option GameState :=
  if s.game_over then some s
  else
    let s₁ := update_snake_position s
    if check_wall_collision s₁ ∨ check_self_collision s₁ then
      some { s₁ with game_over := true }
    else if check_food_collision s₁ then
      handle_food_consumption draws s₁
    else
      some s₁

/-- Python `SnakeGame._reset_game` (also the constructor's initial state):
head at `(5*TILE_SIZE, 5*TILE_SIZE)`, empty body, random food, no
direction, alive, score 0. -/
def reset_game (draws : List Draw) : Option GameState :=
  let head : Tile := ⟨(5 * TILE_SIZE : Nat), (5 * TILE_SIZE : Nat)⟩
  match generate_food head [] draws with
  | none => none
  | some f =>
    some { snake_head := head, snake_body := [], food := f,
           direction := none, game_over := false, score := 0 }

/-- The key table of `SnakeGame._handle_keypress`. -/
def key_to_direction (key : String) : Option Direction :=
  if key = "Up" then some .UP
  else if key = "Down" then some .DOWN
  else if key = "Left" then some .LEFT
  else if key = "Right" then some .RIGHT
  else if key = "w" then some .UP
  else if key = "s" then some .DOWN
  else if key = "a" then some .LEFT
  else if key = "d" then some .RIGHT
  else none

/-- Python `SnakeGame._handle_keypress`: on game over, space restarts and
everything else is ignored; otherwise a mapped key updates the direction
when `_is_valid_direction_change` accepts it. -/
def handle_keypress (key : String) (draws : List Draw) (s : GameState) :
    Option GameState :=
  if s.game_over then
    if key = "space" then reset_game draws else some s
  else
    match key_to_direction key with
    | none => some s
    | some nd =>
      if is_valid_direction_change s nd then some { s with direction := some nd }
      else some s

/-- The states the running program can be in: the constructor's initial
state, and anything produced from a reachable state by a tick
(`_update_game_state`) or a keypress (`_handle_keypress`, which covers
direction changes and restart). -/
inductive Reachable : GameState → Prop
  | init (draws : List Draw) (s : GameState) :
      reset_game draws = some s → Reachable s
  | tick (draws : List Draw) (s s' : GameState) :
      Reachable s → update_game_state draws s = some s' → Reachable s'
  | key (k : String) (draws : List Draw) (s s' : GameState) :
      Reachable s → handle_keypress k draws s = some s' → Reachable s'

/-- A position is inside the board. -/
def inBounds (t : Tile) : Prop :=
  0 ≤ t.x ∧ t.x < WINDOW_WIDTH ∧ 0 ≤ t.y ∧ t.y < WINDOW_HEIGHT

instance (t : Tile) : Decidable (inBounds t) := by
  unfold inBounds; infer_instance

/-- A position sits on the tile grid of the board. -/
def onGrid (t : Tile) : Prop :=
  ∃ c < COLS, ∃ r < ROWS,
    t.x = ((c * TILE_SIZE : Nat) : Int) ∧ t.y = ((r * TILE_SIZE : Nat) : Int)

end Snake

namespace Snake

/-! ### List helper lemmas -/

lemma take_set_of_le {α : Type} (l : List α) (i j : Nat) (x : α) (h : j ≤ i) :
    (l.set i x).take j = l.take j := by
  apply List.ext_getElem
  · simp
  · intro n h1 h2
    simp only [List.length_take, List.length_set] at h1 h2
    rw [List.getElem_take, List.getElem_take, List.getElem_set, if_neg (by omega)]

lemma drop_set_eq_cons {α : Type} (l : List α) (i : Nat) (x : α) (h : i < l.length) :
    (l.set i x).drop i = x :: l.drop (i + 1) := by
  apply List.ext_getElem
  · simp; omega
  · intro n h1 h2
    simp only [List.length_drop, List.length_set] at h1 h2
    rcases n with _ | m
    · simp [List.getElem_drop, List.getElem_set, h]
    · rw [List.getElem_drop]
      simp only [List.getElem_cons_succ]
      rw [List.getElem_drop, List.getElem_set, if_neg (by omega)]
      congr 1
      omega

/-! ### The body-shift loop -/

lemma length_shift_step (head : Tile) (body : List Tile) (i : Nat) :
    (shift_step head body i).length = body.length := by
  unfold shift_step; split <;> simp

lemma length_shift_loop (head : Tile) :
    ∀ (k : Nat) (body : List Tile), (shift_loop head k body).length = body.length
  | 0, _ => rfl
  | k + 1, body => by
    rw [shift_loop, length_shift_loop head k, length_shift_step]

/-- Invariant of the shift loop: after running the iterations for indices
`k-1, ..., 0`, the list is the head followed by the first `k-1` original
entries and the original tail from index `k` on. -/
lemma shift_loop_inv (head : Tile) :
    ∀ (k : Nat) (b : List Tile), 1 ≤ k → k ≤ b.length →
      shift_loop head k b = head :: (b.take (k - 1) ++ b.drop k) := by
  intro k
  induction k with
  | zero => intro b h _; exact absurd h (by omega)
  | succ k ih =>
    intro b h1 hlen
    by_cases hk : k = 0
    · subst hk
      show shift_loop head 0 (shift_step head b 0) = _
      rw [shift_loop, shift_step, if_pos rfl]
      cases b with
      | nil => simp at hlen
      | cons x xs => simp [List.set_cons_zero]
    · have hk1 : 1 ≤ k := by omega
      have hkb : k < b.length := by omega
      rw [shift_loop, shift_step, if_neg hk,
        ih (b.set k (b.getD (k - 1) head)) hk1 (by rw [List.length_set]; omega)]
      congr 1
      rw [take_set_of_le _ _ _ _ (by omega), drop_set_eq_cons _ _ _ hkb]
      have htake : b.take k = b.take (k - 1) ++ [b.getD (k - 1) head] := by
        have hkm : k - 1 < b.length := by omega
        conv_lhs => rw [show k = (k - 1) + 1 by omega]
        rw [List.take_succ, List.getD_eq_getElem?_getD,
          List.getElem?_eq_getElem hkm]
        simp
      simp only [Nat.add_sub_cancel]
      rw [htake]
      simp [List.append_assoc]

/-- The whole loop of `_update_snake_position` shifts the body one step
toward the tail: the first segment becomes the (pre-move) head, segment
`i` becomes old segment `i-1`, and the old last segment drops off. -/
lemma shift_loop_spec (head : Tile) (b : List Tile) (hb : b ≠ []) :
    shift_loop head b.length b = head :: b.dropLast := by
  have h1 : 1 ≤ b.length := List.length_pos.mpr hb
  rw [shift_loop_inv head b.length b h1 le_rfl, List.dropLast_eq_take]
  simp

/-! ### Field bookkeeping for `update_snake_position` -/

lemma usp_food (s : GameState) : (update_snake_position s).food = s.food := by
  unfold update_snake_position; split <;> rfl

lemma usp_score (s : GameState) : (update_snake_position s).score = s.score := by
  unfold update_snake_position; split <;> rfl

lemma usp_game_over (s : GameState) :
    (update_snake_position s).game_over = s.game_over := by
  unfold update_snake_position; split <;> rfl

lemma usp_direction (s : GameState) :
    (update_snake_position s).direction = s.direction := by
  unfold update_snake_position; split <;> rfl

lemma usp_body (s : GameState) (d : Direction) (hd : s.direction = some d) :
    (update_snake_position s).snake_body =
      if s.snake_body = [] then []
      else s.snake_head :: s.snake_body.dropLast := by
  unfold update_snake_position
  rw [hd]
  by_cases hb : s.snake_body = []
  · simp [hb, shift_loop]
  · simp [hb, shift_loop_spec s.snake_head s.snake_body hb]

lemma usp_head (s : GameState) (d : Direction) (hd : s.direction = some d) :
    (update_snake_position s).snake_head =
      ⟨s.snake_head.x + d.value.1 * (TILE_SIZE : Int),
       s.snake_head.y + d.value.2 * (TILE_SIZE : Int)⟩ := by
  unfold update_snake_position
  rw [hd]

lemma usp_none (s : GameState) (hd : s.direction = none) :
    update_snake_position s = s := by
  unfold update_snake_position
  rw [hd]

end Snake

namespace Snake

/-- The tile produced by one `randint` draw pair in `_generate_food`. -/
def drawTile (c : Draw) : Tile :=
  ⟨((c.1 : Nat) * TILE_SIZE : Nat), ((c.2 : Nat) * TILE_SIZE : Nat)⟩

/-- Every tile of the board, as `_generate_food` can produce them. -/
def allTiles : List Tile :=
  (List.range COLS).flatMap fun cx =>
    (List.range ROWS).map fun cy =>
      ⟨((cx * TILE_SIZE : Nat) : Int), ((cy * TILE_SIZE : Nat) : Int)⟩

lemma drawTile_mem_allTiles (c : Draw) : drawTile c ∈ allTiles := by
  simp only [allTiles, List.mem_flatMap, List.mem_map, List.mem_range]
  exact ⟨c.1, c.1.isLt, c.2, c.2.isLt, rfl⟩

/-- Whatever `_generate_food` returns is off the snake, inside the board
and on the tile grid. -/
lemma generate_food_spec (head : Tile) (body : List Tile) :
    ∀ (draws : List Draw) (f : Tile),
      generate_food head body draws = some f →
      f ≠ head ∧ f ∉ body ∧ inBounds f ∧ onGrid f := by
  intro draws
  induction draws with
  | nil => intro f h; simp [generate_food] at h
  | cons c rest ih =>
    intro f h
    rw [generate_food] at h
    split at h
    · rename_i hcond
      cases h
      refine ⟨hcond.1, hcond.2, ?_, ?_⟩
      · have h1 : (c.1 : Nat) < COLS := c.1.isLt
        have h2 : (c.2 : Nat) < ROWS := c.2.isLt
        simp only [inBounds, WINDOW_WIDTH, WINDOW_HEIGHT, COLS, ROWS, TILE_SIZE] at *
        omega
      · exact ⟨c.1, c.1.isLt, c.2, c.2.isLt, rfl, rfl⟩
    · exact ih f h

/-- If the snake occupies every tile `_generate_food` can draw, the
`while True` loop never returns: the result is `none` on every finite
stream of random draws. -/
lemma generate_food_none_of_full (head : Tile) (body : List Tile)
    (hfull : ∀ c : Draw, drawTile c = head ∨ drawTile c ∈ body) :
    ∀ draws : List Draw, generate_food head body draws = none := by
  intro draws
  induction draws with
  | nil => rfl
  | cons c rest ih =>
    rw [generate_food, if_neg, ih]
    intro hc
    rcases hfull c with h | h
    · exact hc.1 h
    · exact hc.2 h

/-! ### Collision checks as propositions -/

lemma check_wall_false_iff (s : GameState) :
    check_wall_collision s = false ↔ inBounds s.snake_head := by
  simp only [check_wall_collision, inBounds, decide_eq_false_iff_not, not_or,
    not_lt, not_le]

lemma check_self_false_iff (s : GameState) :
    check_self_collision s = false ↔ s.snake_head ∉ s.snake_body := by
  simp [check_self_collision]

lemma check_self_true_iff (s : GameState) :
    check_self_collision s = true ↔ s.snake_head ∈ s.snake_body := by
  simp [check_self_collision]

lemma check_food_true_iff (s : GameState) :
    check_food_collision s = true ↔ s.snake_head = s.food := by
  simp [check_food_collision]

lemma check_food_false_iff (s : GameState) :
    check_food_collision s = false ↔ s.snake_head ≠ s.food := by
  simp [check_food_collision]

/-! ### The inductive invariant -/

/-- The snake is duplicate-free, except that the most recently appended
tail segment may coincide with the head (which happens exactly in the
state a food-consumption tick returns). -/
def GoodSnake (s : GameState) : Prop :=
  (s.snake_head :: s.snake_body).Pairwise (· ≠ ·) ∨
    ∃ b : List Tile,
      s.snake_body = b ++ [s.snake_head] ∧ (s.snake_head :: b).Pairwise (· ≠ ·)

/-- The inductive invariant of the game loop: the body stays on the
board, the head is on the board while the snake is alive, the snake is
`GoodSnake` while alive, and before the first input the state is exactly
a fresh reset state. -/
def Inv (s : GameState) : Prop :=
  (∀ t ∈ s.snake_body, inBounds t) ∧
  (s.game_over = false → inBounds s.snake_head) ∧
  (s.game_over = false → GoodSnake s) ∧
  (s.direction = none →
    s.snake_head = ⟨125, 125⟩ ∧ s.snake_body = [] ∧ s.game_over = false ∧
      s.food ≠ s.snake_head)

lemma inv_reset (draws : List Draw) (s : GameState)
    (h : reset_game draws = some s) : Inv s := by
  simp only [reset_game] at h
  split at h
  · exact absurd h (by simp)
  · rename_i f hf
    cases h
    have hspec := generate_food_spec _ _ _ _ hf
    refine ⟨by simp, ?_, ?_, ?_⟩
    · intro _
      have hb : inBounds (⟨125, 125⟩ : Tile) := by decide
      exact hb
    · intro _; left; simp
    · intro _
      refine ⟨rfl, rfl, rfl, ?_⟩
      simpa using hspec.1

lemma inv_keypress (k : String) (draws : List Draw) (s s' : GameState)
    (hs : Inv s) (h : handle_keypress k draws s = some s') : Inv s' := by
  unfold handle_keypress at h
  split at h
  · split at h
    · exact inv_reset draws s' h
    · cases h; exact hs
  · split at h
    · cases h; exact hs
    · split at h <;> cases h
      · obtain ⟨h1, h2, h3, _⟩ := hs
        exact ⟨h1, h2, h3, by simp⟩
      · exact hs

end Snake

namespace Snake

lemma inv_tick (draws : List Draw) (s s' : GameState)
    (hs : Inv s) (h : update_game_state draws s = some s') : Inv s' := by
  obtain ⟨hBody, hHead, hGood, hNone⟩ := hs
  simp only [update_game_state] at h
  cases hgo : s.game_over with
  | true =>
    rw [if_pos hgo] at h
    cases h
    exact ⟨hBody, hHead, hGood, hNone⟩
  | false =>
    rw [if_neg (by simp [hgo])] at h
    cases hd : s.direction with
    | none =>
      obtain ⟨hh, hb, hg, hf⟩ := hNone hd
      rw [usp_none s hd] at h
      have hw : check_wall_collision s = false := by
        rw [check_wall_false_iff, hh]; decide
      have hsc : check_self_collision s = false := by
        rw [check_self_false_iff, hb]; simp
      have hfc : check_food_collision s = false := by
        rw [check_food_false_iff]
        exact fun he => hf he.symm
      rw [if_neg (by simp [hw, hsc]), if_neg (by simp [hfc])] at h
      cases h
      exact ⟨hBody, hHead, hGood, hNone⟩
    | some d =>
      have hin : inBounds s.snake_head := hHead hgo
      have hgood := hGood hgo
      have hb₁ := usp_body s d hd
      have hB1 : ∀ t ∈ (update_snake_position s).snake_body, inBounds t := by
        rw [hb₁]
        by_cases hbe : s.snake_body = []
        · simp [hbe]
        · rw [if_neg hbe]
          intro t ht
          rcases List.mem_cons.mp ht with he | ht'
          · exact he ▸ hin
          · exact hBody t ((List.dropLast_sublist s.snake_body).subset ht')
      have hP1 : (update_snake_position s).snake_body.Pairwise (· ≠ ·) := by
        rw [hb₁]
        by_cases hbe : s.snake_body = []
        · simp [hbe]
        · rw [if_neg hbe]
          rcases hgood with hpair | ⟨b, hbeq, hpb⟩
          · obtain ⟨hhd, hpb⟩ := List.pairwise_cons.mp hpair
            refine List.pairwise_cons.mpr
              ⟨?_, hpb.sublist (List.dropLast_sublist s.snake_body)⟩
            intro t ht
            exact hhd t ((List.dropLast_sublist s.snake_body).subset ht)
          · rw [hbeq, List.dropLast_concat]
            exact hpb
      by_cases hcol :
          check_wall_collision (update_snake_position s) = true ∨
            check_self_collision (update_snake_position s) = true
      · rw [if_pos hcol] at h
        cases h
        refine ⟨hB1, ?_, ?_, ?_⟩
        · intro hfalse; simp at hfalse
        · intro hfalse; simp at hfalse
        · intro hdir
          simp only at hdir
          rw [usp_direction s, hd] at hdir
          cases hdir
      · rw [if_neg hcol] at h
        push_neg at hcol
        obtain ⟨hw, hsc⟩ := hcol
        have hw' : check_wall_collision (update_snake_position s) = false := by
          simpa using hw
        have hsc' : check_self_collision (update_snake_position s) = false := by
          simpa using hsc
        have hin₁ : inBounds (update_snake_position s).snake_head :=
          (check_wall_false_iff _).mp hw'
        have hni :
            (update_snake_position s).snake_head ∉
              (update_snake_position s).snake_body :=
          (check_self_false_iff _).mp hsc'
        have hP :
            ((update_snake_position s).snake_head ::
              (update_snake_position s).snake_body).Pairwise (· ≠ ·) :=
          List.pairwise_cons.mpr ⟨fun t ht he => hni (he ▸ ht), hP1⟩
        by_cases hfc : check_food_collision (update_snake_position s) = true
        · rw [if_pos hfc] at h
          have hhf :
              (update_snake_position s).snake_head =
                (update_snake_position s).food :=
            (check_food_true_iff _).mp hfc
          simp only [handle_food_consumption] at h
          split at h
          · exact absurd h (by simp)
          · rename_i f hfgen
            cases h
            have heta :
                (⟨(update_snake_position s).food.x,
                  (update_snake_position s).food.y⟩ : Tile) =
                  (update_snake_position s).food := rfl
            refine ⟨?_, ?_, ?_, ?_⟩
            · intro t ht
              simp only [] at ht
              rw [heta, ← hhf] at ht
              rcases List.mem_append.mp ht with ht' | ht'
              · exact hB1 t ht'
              · rw [List.mem_singleton.mp ht']
                exact hin₁
            · intro _
              exact hin₁
            · intro _
              right
              refine ⟨(update_snake_position s).snake_body, ?_, hP⟩
              show (update_snake_position s).snake_body ++
                  [⟨(update_snake_position s).food.x,
                    (update_snake_position s).food.y⟩] =
                (update_snake_position s).snake_body ++
                  [(update_snake_position s).snake_head]
              rw [heta, ← hhf]
            · intro hdir
              simp only at hdir
              rw [usp_direction s, hd] at hdir
              cases hdir
        · rw [if_neg hfc] at h
          cases h
          refine ⟨hB1, fun _ => hin₁, fun _ => Or.inl hP, ?_⟩
          intro hdir
          rw [usp_direction s, hd] at hdir
          cases hdir

/-- Every reachable state satisfies the inductive invariant. -/
lemma reachable_inv (s : GameState) (h : Reachable s) : Inv s := by
  induction h with
  | init draws s hr => exact inv_reset draws s hr
  | tick draws s s' _ hstep ih => exact inv_tick draws s s' ih hstep
  | key k draws s s' _ hstep ih => exact inv_keypress k draws s s' ih hstep

end Snake

namespace Snake

lemma usp_body_length (s : GameState) :
    (update_snake_position s).snake_body.length = s.snake_body.length := by
  unfold update_snake_position
  split
  · rfl
  · simp [length_shift_loop]

lemma check_wall_true_iff (s : GameState) :
    check_wall_collision s = true ↔
      (s.snake_head.x < 0 ∨ s.snake_head.x ≥ WINDOW_WIDTH ∨
        s.snake_head.y < 0 ∨ s.snake_head.y ≥ WINDOW_HEIGHT) := by
  simp [check_wall_collision]

/-- C1: for every state with `gameOver` false and `direction` set, the
movement step of a tick shifts the body in reverse index order — segment
0 ends at the head's pre-move position and segment `i` at the pre-move
position of segment `i-1`, reading only pre-move positions — and then
moves the head by exactly `direction.value * TILE_SIZE`. -/
theorem C1_shift_then_move (s : GameState) (d : Direction)
    (hgo : s.game_over = false) (hd : s.direction = some d) :
    (update_snake_position s).snake_body.length = s.snake_body.length ∧
    (∀ i, i < s.snake_body.length →
      (update_snake_position s).snake_body.getD i ⟨0, 0⟩ =
        if i = 0 then s.snake_head else s.snake_body.getD (i - 1) ⟨0, 0⟩) ∧
    (update_snake_position s).snake_head =
      ⟨s.snake_head.x + d.value.1 * (TILE_SIZE : Int),
       s.snake_head.y + d.value.2 * (TILE_SIZE : Int)⟩ := by
  refine ⟨usp_body_length s, ?_, usp_head s d hd⟩
  intro i hi
  have hbe : s.snake_body ≠ [] := by
    intro he
    rw [he] at hi
    simp at hi
  rw [usp_body s d hd, if_neg hbe]
  by_cases h0 : i = 0
  · subst h0
    simp
  · rw [if_neg h0]
    have h1 : 1 ≤ i := Nat.one_le_iff_ne_zero.mpr h0
    have him : i - 1 < s.snake_body.dropLast.length := by
      rw [List.length_dropLast]
      omega
    have him2 : i - 1 < s.snake_body.length := by omega
    have hcons :
        (s.snake_head :: s.snake_body.dropLast).getD i ⟨0, 0⟩ =
          s.snake_body.dropLast.getD (i - 1) ⟨0, 0⟩ := by
      cases i with
      | zero => omega
      | succ k => simp [List.getD_cons_succ]
    rw [hcons, List.getD_eq_getElem?_getD, List.getD_eq_getElem?_getD,
      List.getElem?_eq_getElem him, List.getElem?_eq_getElem him2]
    simp [List.getElem_dropLast]

/-- A concrete three-segment snake for instantiating C1. -/
def c1s : GameState :=
  ⟨⟨125, 125⟩, [⟨100, 125⟩, ⟨100, 100⟩], ⟨0, 0⟩, some .RIGHT, false, 0⟩

theorem C1_shift_then_move_witness :
    (update_snake_position c1s).snake_body.getD 0 ⟨0, 0⟩ = c1s.snake_head ∧
    (update_snake_position c1s).snake_body.getD 1 ⟨0, 0⟩ =
      c1s.snake_body.getD 0 ⟨0, 0⟩ ∧
    (update_snake_position c1s).snake_head = ⟨150, 125⟩ := by
  obtain ⟨hlen, hseg, hhead⟩ := C1_shift_then_move c1s Direction.RIGHT rfl rfl
  refine ⟨?_, ?_, ?_⟩
  · have h := hseg 0 (by decide)
    simpa using h
  · have h := hseg 1 (by decide)
    simpa using h
  · rw [hhead]
    decide

/-- C5: a tick that moves the head out of bounds sets `gameOver` on that
tick, and once `gameOver` is true every tick returns the state unchanged
(until a restart, which is a keypress, not a tick). -/
theorem C5_wall_collision_and_terminal (draws : List Draw) (s : GameState) :
    (s.game_over = false →
      ((update_snake_position s).snake_head.x < 0 ∨
        (update_snake_position s).snake_head.x ≥ WINDOW_WIDTH ∨
        (update_snake_position s).snake_head.y < 0 ∨
        (update_snake_position s).snake_head.y ≥ WINDOW_HEIGHT) →
      update_game_state draws s =
        some { update_snake_position s with game_over := true }) ∧
    (s.game_over = true → update_game_state draws s = some s) := by
  constructor
  · intro hgo hoob
    have hw : check_wall_collision (update_snake_position s) = true :=
      (check_wall_true_iff _).mpr hoob
    simp only [update_game_state]
    rw [if_neg (by simp [hgo]), if_pos (Or.inl hw)]
  · intro hgo
    simp only [update_game_state]
    rw [if_pos hgo]

/-- A snake at the right edge about to hit the wall. -/
def c5s : GameState := ⟨⟨600, 125⟩, [], ⟨0, 0⟩, some .RIGHT, false, 0⟩

/-- A terminal state. -/
def c5t : GameState := ⟨⟨300, 300⟩, [⟨275, 300⟩], ⟨0, 0⟩, some .UP, true, 3⟩

theorem C5_wall_collision_and_terminal_witness :
    update_game_state [] c5s =
      some { update_snake_position c5s with game_over := true } ∧
    update_game_state [] c5t = some c5t :=
  ⟨(C5_wall_collision_and_terminal [] c5s).1 rfl (by decide),
   (C5_wall_collision_and_terminal [] c5t).2 rfl⟩

/-- C7: on an alive tick with a direction set, if the moved head equals
any post-shift body segment, the tick sets `gameOver` to true. -/
theorem C7_self_collision_game_over (draws : List Draw) (s : GameState)
    (d : Direction) (hgo : s.game_over = false) (hd : s.direction = some d)
    (hself :
      (update_snake_position s).snake_head ∈ (update_snake_position s).snake_body) :
    update_game_state draws s =
      some { update_snake_position s with game_over := true } := by
  have hsc : check_self_collision (update_snake_position s) = true :=
    (check_self_true_iff _).mpr hself
  simp only [update_game_state]
  rw [if_neg (by simp [hgo]), if_pos (Or.inr hsc)]

/-- A length-3 snake whose head lands on its own second segment. -/
def c7s : GameState :=
  ⟨⟨125, 125⟩, [⟨150, 125⟩, ⟨175, 125⟩], ⟨0, 0⟩, some .RIGHT, false, 0⟩

theorem C7_self_collision_game_over_witness :
    update_game_state [] c7s =
      some { update_snake_position c7s with game_over := true } :=
  C7_self_collision_game_over [] c7s Direction.RIGHT rfl rfl (by decide)

end Snake

namespace Snake

/-- C6: with `gameOver` false, a direction request is always accepted
when `direction` is unset; once set, the exact opposite direction is
silently rejected and any other request is accepted. -/
theorem C6_direction_change (key : String) (nd : Direction) (draws : List Draw)
    (s : GameState) (hgo : s.game_over = false)
    (hk : key_to_direction key = some nd) :
    (s.direction = none →
      handle_keypress key draws s = some { s with direction := some nd }) ∧
    (∀ d, s.direction = some d → nd = opposite d →
      handle_keypress key draws s = some s) ∧
    (∀ d, s.direction = some d → nd ≠ opposite d →
      handle_keypress key draws s = some { s with direction := some nd }) := by
  refine ⟨?_, ?_, ?_⟩
  · intro hdir
    simp [handle_keypress, hgo, hk, is_valid_direction_change, hdir]
  · intro d hd hopp
    simp [handle_keypress, hgo, hk, is_valid_direction_change, hd, hopp]
  · intro d hd hne
    simp [handle_keypress, hgo, hk, is_valid_direction_change, hd, hne]

/-- A state with no direction yet. -/
def c6a : GameState := ⟨⟨125, 125⟩, [], ⟨0, 0⟩, none, false, 0⟩

/-- A state moving RIGHT. -/
def c6b : GameState := ⟨⟨125, 125⟩, [], ⟨0, 0⟩, some .RIGHT, false, 0⟩

theorem C6_direction_change_witness :
    handle_keypress "Up" [] c6a = some { c6a with direction := some .UP } ∧
    handle_keypress "Left" [] c6b = some c6b ∧
    handle_keypress "Up" [] c6b = some { c6b with direction := some .UP } :=
  ⟨(C6_direction_change "Up" Direction.UP [] c6a rfl rfl).1 rfl,
   (C6_direction_change "Left" Direction.LEFT [] c6b rfl rfl).2.1
     Direction.RIGHT rfl rfl,
   (C6_direction_change "Up" Direction.UP [] c6b rfl rfl).2.2
     Direction.RIGHT rfl (by decide)⟩

/-- C8: a tick that turns `gameOver` from false to true performs no food
consumption: score and body length are unchanged. -/
theorem C8_death_no_consumption (draws : List Draw) (s s' : GameState)
    (hgo : s.game_over = false) (h : update_game_state draws s = some s')
    (hgo2 : s'.game_over = true) :
    s'.score = s.score ∧ s'.snake_body.length = s.snake_body.length := by
  simp only [update_game_state] at h
  rw [if_neg (by simp [hgo])] at h
  split at h
  · cases h
    exact ⟨usp_score s, usp_body_length s⟩
  · split at h
    · simp only [handle_food_consumption] at h
      split at h
      · exact absurd h (by simp)
      · cases h
        have hg : s.game_over = true := by
          rw [← usp_game_over s]
          exact hgo2
        rw [hgo] at hg
        cases hg
    · cases h
      have hg : s.game_over = true := by
        rw [← usp_game_over s]
        exact hgo2
      rw [hgo] at hg
      cases hg

/-- A snake about to die on the wall while sitting on the food tile. -/
def c8s : GameState := ⟨⟨600, 125⟩, [⟨575, 125⟩], ⟨625, 125⟩, some .RIGHT, false, 2⟩

/-- The state the death tick from `c8s` produces. -/
def c8s1 : GameState := ⟨⟨625, 125⟩, [⟨600, 125⟩], ⟨625, 125⟩, some .RIGHT, true, 2⟩

theorem C8_death_no_consumption_witness :
    update_game_state [] c8s = some c8s1 ∧
    c8s1.score = c8s.score ∧
    c8s1.snake_body.length = c8s.snake_body.length := by
  have h : update_game_state [] c8s = some c8s1 := by decide
  have hc := C8_death_no_consumption [] c8s c8s1 rfl h (by decide)
  exact ⟨h, hc.1, hc.2⟩

end Snake

namespace Snake

/-- C9: on an alive tick where the moved head lands on the food with no
wall or self collision, exactly one segment is appended at the tail end
of the body at the old food position, the score goes up by exactly 1,
and the relocated food avoids the head and the whole post-growth body,
lying on a grid tile inside the board. -/
theorem C9_consumption_effects (draws : List Draw) (s s' : GameState)
    (d : Direction) (hgo : s.game_over = false) (hd : s.direction = some d)
    (hw : check_wall_collision (update_snake_position s) = false)
    (hsc : check_self_collision (update_snake_position s) = false)
    (hfood : (update_snake_position s).snake_head = s.food)
    (h : update_game_state draws s = some s') :
    s'.snake_body = (update_snake_position s).snake_body ++ [s.food] ∧
    s'.snake_body.length = s.snake_body.length + 1 ∧
    s'.score = s.score + 1 ∧
    s'.food ≠ s'.snake_head ∧
    s'.food ∉ s'.snake_body ∧
    inBounds s'.food ∧ onGrid s'.food := by
  have hfc : check_food_collision (update_snake_position s) = true := by
    rw [check_food_true_iff, usp_food]
    exact hfood
  simp only [update_game_state] at h
  rw [if_neg (by simp [hgo]), if_neg (by simp [hw, hsc]), if_pos hfc] at h
  simp only [handle_food_consumption] at h
  split at h
  · exact absurd h (by simp)
  · rename_i f hfgen
    cases h
    have heta :
        (⟨(update_snake_position s).food.x,
          (update_snake_position s).food.y⟩ : Tile) =
          (update_snake_position s).food := rfl
    have hspec := generate_food_spec _ _ _ _ hfgen
    refine ⟨?_, ?_, ?_, ?_, ?_, hspec.2.2.1, hspec.2.2.2⟩
    · show (update_snake_position s).snake_body ++
          [⟨(update_snake_position s).food.x, (update_snake_position s).food.y⟩] =
        (update_snake_position s).snake_body ++ [s.food]
      rw [heta, usp_food]
    · show ((update_snake_position s).snake_body ++ [_]).length = _
      rw [List.length_append, usp_body_length]
      rfl
    · show (update_snake_position s).score + 1 = s.score + 1
      rw [usp_score]
    · exact hspec.1
    · exact hspec.2.1

/-- A head one tile left of the food, about to eat it. -/
def c9s : GameState := ⟨⟨125, 125⟩, [], ⟨150, 125⟩, some .RIGHT, false, 0⟩

/-- The draw used to relocate the food in the witness. -/
def d00 : Draw := (⟨0, by decide⟩, ⟨0, by decide⟩)

/-- The state after `c9s` eats the food, with the relocated food at the
tile drawn by `d00`. -/
def c9s1 : GameState := ⟨⟨150, 125⟩, [⟨150, 125⟩], ⟨0, 0⟩, some .RIGHT, false, 1⟩

theorem C9_consumption_effects_witness :
    update_game_state [d00] c9s = some c9s1 ∧
    c9s1.snake_body = (update_snake_position c9s).snake_body ++ [c9s.food] ∧
    c9s1.score = c9s.score + 1 ∧
    c9s1.food ≠ c9s1.snake_head ∧
    inBounds c9s1.food := by
  have h : update_game_state [d00] c9s = some c9s1 := by decide
  have hc := C9_consumption_effects [d00] c9s c9s1 Direction.RIGHT rfl rfl
    (by decide) (by decide) (by decide) h
  exact ⟨h, hc.1, hc.2.2.1, hc.2.2.2.1, hc.2.2.2.2.2.1⟩

/-- C3: if the snake occupies every tile the food generator can draw
(a fully occupied board), `_generate_food` returns on no finite stream
of random draws whatsoever — its `while True` rejection-sampling loop
runs forever instead of freezing the game as a win or failing loudly. -/
theorem C3_full_board_generate_food_none (head : Tile) (body : List Tile)
    (hfull : ∀ c : Draw, drawTile c = head ∨ drawTile c ∈ body)
    (draws : List Draw) :
    generate_food head body draws = none :=
  generate_food_none_of_full head body hfull draws

theorem C3_full_board_generate_food_none_witness :
    generate_food ⟨0, 0⟩ allTiles [d00] = none :=
  C3_full_board_generate_food_none ⟨0, 0⟩ allTiles
    (fun c => Or.inr (drawTile_mem_allTiles c)) [d00]

end Snake

namespace Snake

/-- The draw that places the initial food at tile `(150, 125)`. -/
def d65 : Draw := (⟨6, by decide⟩, ⟨5, by decide⟩)

/-- Fresh state with food one tile right of the head. -/
def c2s0 : GameState := ⟨⟨125, 125⟩, [], ⟨150, 125⟩, none, false, 0⟩

/-- `c2s0` after the player presses Right. -/
def c2s1 : GameState := ⟨⟨125, 125⟩, [], ⟨150, 125⟩, some .RIGHT, false, 0⟩

/-- `c2s1` after one tick: the head ate the food, and the appended tail
segment sits exactly on the head. -/
def c2s : GameState := ⟨⟨150, 125⟩, [⟨150, 125⟩], ⟨0, 0⟩, some .RIGHT, false, 1⟩

lemma reachable_c2s0 : Reachable c2s0 :=
  Reachable.init [d65] c2s0 (by decide)

lemma reachable_c2s1 : Reachable c2s1 :=
  Reachable.key "Right" [] c2s0 c2s1 reachable_c2s0 (by decide)

lemma reachable_c2s : Reachable c2s :=
  Reachable.tick [d00] c2s1 c2s reachable_c2s1 (by decide)

/-- C2 fails as stated: after a food-consumption tick the program is in
a reachable, alive state (`gameOver` false) in which the head occupies
the same `Position` as a body segment. -/
theorem C2_no_duplicates_counterexample :
    Reachable c2s ∧ c2s.game_over = false ∧
      c2s.snake_head ∈ c2s.snake_body :=
  ⟨reachable_c2s, rfl, by decide⟩

/-- C2 (amended): in every reachable alive state the body segments are
pairwise distinct and the head differs from every body segment except
possibly the last (most recently appended) one, which coincides with the
head exactly in the state a food-consumption tick returns. -/
theorem C2_snake_distinct_amended (s : GameState) (h : Reachable s)
    (hgo : s.game_over = false) :
    s.snake_body.Pairwise (· ≠ ·) ∧
    ∀ t ∈ s.snake_body.dropLast, t ≠ s.snake_head := by
  obtain ⟨_, _, hGood, _⟩ := reachable_inv s h
  rcases hGood hgo with hpair | ⟨b, hbeq, hpb⟩
  · obtain ⟨hhd, hpb⟩ := List.pairwise_cons.mp hpair
    refine ⟨hpb, ?_⟩
    intro t ht
    exact (hhd t ((List.dropLast_sublist _).subset ht)).symm
  · obtain ⟨hhd, hpb2⟩ := List.pairwise_cons.mp hpb
    constructor
    · rw [hbeq, List.pairwise_append]
      refine ⟨hpb2, by simp, ?_⟩
      intro a ha b2 hb2
      rw [List.mem_singleton.mp hb2]
      exact fun he => (hhd a ha) he.symm
    · rw [hbeq, List.dropLast_concat]
      intro t ht
      exact (hhd t ht).symm

theorem C2_snake_distinct_amended_witness :
    c2s.snake_body.Pairwise (· ≠ ·) :=
  (C2_snake_distinct_amended c2s reachable_c2s rfl).1

/-- A direction-unset state whose food coincides with the head (not
reachable, but allowed by the claim's quantifier). -/
def c4s : GameState := ⟨⟨125, 125⟩, [], ⟨125, 125⟩, none, false, 0⟩

/-- The state one tick produces from `c4s`: the food got eaten. -/
def c4s1 : GameState := ⟨⟨125, 125⟩, [⟨125, 125⟩], ⟨0, 0⟩, none, false, 1⟩

/-- C4 fails as stated ("regardless of where the food is"): with
`direction` unset but the food on the head tile, a tick consumes the
food — the score and body change. -/
theorem C4_no_op_counterexample :
    c4s.direction = none ∧ c4s.game_over = false ∧
    update_game_state [d00] c4s = some c4s1 ∧
    c4s1.score ≠ c4s.score ∧ c4s1.snake_body ≠ c4s.snake_body := by
  decide

/-- C4 (amended): for every REACHABLE state with `direction` unset, a
tick returns the state itself — head, body, score, food, and `gameOver`
all unchanged.  (In reachable direction-unset states the food is never
on the head, so the food-consumption branch cannot fire.) -/
theorem C4_no_op_when_direction_unset (draws : List Draw) (s : GameState)
    (h : Reachable s) (hd : s.direction = none) :
    update_game_state draws s = some s := by
  obtain ⟨_, _, _, hNone⟩ := reachable_inv s h
  obtain ⟨hh, hb, hg, hf⟩ := hNone hd
  simp only [update_game_state]
  rw [if_neg (by simp [hg]), usp_none s hd]
  have hw : check_wall_collision s = false := by
    rw [check_wall_false_iff, hh]; decide
  have hsc : check_self_collision s = false := by
    rw [check_self_false_iff, hb]; simp
  have hfc : check_food_collision s = false := by
    rw [check_food_false_iff]
    exact fun he => hf he.symm
  rw [if_neg (by simp [hw, hsc]), if_neg (by simp [hfc])]

theorem C4_no_op_when_direction_unset_witness :
    update_game_state [] c2s0 = some c2s0 :=
  C4_no_op_when_direction_unset [] c2s0 reachable_c2s0 rfl

/-- C10: in every reachable state every body segment lies within board
bounds, and the head does too whenever the snake is alive — so only the
head can leave the board, and only on the tick that sets `gameOver`. -/
theorem C10_body_in_bounds (s : GameState) (h : Reachable s) :
    (∀ t ∈ s.snake_body, inBounds t) ∧
    (s.game_over = false → inBounds s.snake_head) := by
  obtain ⟨h1, h2, _, _⟩ := reachable_inv s h
  exact ⟨h1, h2⟩

theorem C10_body_in_bounds_witness : inBounds c2s.snake_head :=
  (C10_body_in_bounds c2s reachable_c2s).2 rfl

end Snake
